import Mathlib

/-!
Shallow embedding of `src/buildkite.go` from tink-ab/buildkite-stats.

Modelling conventions:
* Instants (`time.Time`) and durations (`time.Duration`) are natural numbers
  of seconds since the Unix epoch.  Go stores durations in nanoseconds; all
  constants involved here are whole seconds, so the seconds scale is an exact
  rescaling.
* `time.Local` is modelled as a fixed zone of offset zero, so the local
  midnight of the calendar day containing `t` is `t / (24*hour) * (24*hour)`.
* `time.Now()` is passed explicitly as a `now : Nat` argument, sampled once
  where the Go code calls it.
* The gzip/JSON codecs are external collaborators (spec §1); the cache is
  modelled as storing the decoded `List Build` directly, so a successful
  `Get` yields exactly the list that was `Put`.
* `rand.Intn (7*24)` is modelled by an explicit argument `r : Nat` together
  with the hypothesis `r < 7*24` stating the contract of `Intn`.
-/

namespace BuildkiteStats

/-- One minute, in seconds (model of `time.Minute`). -/
def minute : Nat := 60

/-- One hour, in seconds (model of `time.Hour`). -/
def hour : Nat := 60 * minute

/-- `const itemsPerPage = 100` from the source. -/
def itemsPerPage : Nat := 100

/-- `type Pipeline struct { Name string }`. -/
structure Pipeline where
  name : String
deriving DecidableEq

/-- `type Build struct` from the source; the four timestamps are instants in
seconds. -/
structure Build where
  id : String
  pipeline : Pipeline
  branch : String
  scheduledAt : Nat
  finishedAt : Nat
  startedAt : Nat
  createdAt : Nat
deriving DecidableEq

/-- `type timeInterval struct { From, To time.Time }`. -/
structure timeInterval where
  From : Nat
  To : Nat
deriving DecidableEq

/-- Model of `time.Date(from.Year(), from.Month(), from.Day(), 0, 0, 0, 0,
time.Local)`: the midnight opening the calendar day that contains `t`, in a
fixed zone of offset zero. -/
def midnightOf (t : Nat) : Nat := t / (24 * hour) * (24 * hour)

/-- The `for startDay.Before(to_)` loop of `generateDailyIntervals`: starting
from `startDay` (with `endDay = startDay + 24h` kept implicit), append the
interval `[startDay, startDay+24h)` and advance both bounds by 24 hours while
`startDay < to_`. -/
def genLoop (to_ startDay : Nat) : List timeInterval :=
  if h : startDay < to_ then
    { From := startDay, To := startDay + 24 * hour } :: genLoop to_ (startDay + 24 * hour)
  else []
termination_by to_ - startDay
decreasing_by simp [hour, minute]; omega

/-- `func generateDailyIntervals(from, to_ time.Time) []timeInterval`. -/
def generateDailyIntervals (from_ to_ : Nat) : List timeInterval :=
  genLoop to_ (midnightOf from_)

/-- `func cacheTTL(interval timeInterval) time.Duration`.  `now` models the
`time.Now()` call; `r` models the draw `rand.Intn(7*24)` (so callers assume
`r < 7*24`).  The Go condition `time.Now().Sub(interval.To) > 12*time.Hour`
is the signed comparison `now - To > 12h`, i.e. `To + 12h < now`. -/
def cacheTTL (now : Nat) (interval : timeInterval) (r : Nat) : Nat :=
  if interval.To + 12 * hour < now then
    60 * 24 * hour + r * hour
  else
    10 * minute

/-- The filtering condition of the `ListBuilds` inner loop:
`b.CreatedAt.After(from) && b.CreatedAt.Before(to_) && pred.Predicate(b)`. -/
def windowPred (from_ to_ : Nat) (pred : Build → Bool) (b : Build) : Bool :=
  decide (from_ < b.createdAt) && decide (b.createdAt < to_) && pred b

/-- The bucket loop of `ListBuilds`: walk the daily intervals in order; a
failed bucket fetch returns the accumulated results together with the error
(`return res, err`); a successful bucket appends its window-and-predicate
filtered builds. `fetch` abstracts `b.listBuildsBetween(interval,
cacheTTL(interval))`. -/
def runBuckets (fetch : timeInterval → Except String (List Build))
    (from_ to_ : Nat) (pred : Build → Bool) :
    List timeInterval → List Build → List Build × Option String
  | [], acc => (acc, none)
  | iv :: rest, acc =>
    match fetch iv with
    | .error e => (acc, some e)
    | .ok bs => runBuckets fetch from_ to_ pred rest (acc ++ bs.filter (windowPred from_ to_ pred))

/-- `func (b *NetworkBuildkite) ListBuilds(from time.Time, pred
BuildPredicate) ([]Build, error)`.  `now` is the value of `to_ := time.Now()`
sampled once at entry; the pair's second component is the returned `error`
(`none` = `nil`), alongside the partial results, as in Go's multiple return. -/
def ListBuilds (fetch : timeInterval → Except String (List Build))
    (now : Nat) (from_ : Nat) (pred : Build → Bool) : List Build × Option String :=
  runBuckets fetch from_ now pred (generateDailyIntervals from_ now) []

/-- The fields of `buildkite.Build` that `newBuildFromBuildkite` reads (its
pointers are modelled as already dereferenced, per the source comment that
all fields are set for finished builds). -/
structure BKBuild where
  id : String
  pipelineName : String
  branch : String
  createdAt : Nat
  startedAt : Nat
  scheduledAt : Nat
  finishedAt : Nat
deriving DecidableEq

/-- `func newBuildFromBuildkite(b buildkite.Build) Build`. -/
def newBuildFromBuildkite (b : BKBuild) : Build :=
  { id := b.id
    pipeline := { name := b.pipelineName }
    branch := b.branch
    createdAt := b.createdAt
    startedAt := b.startedAt
    scheduledAt := b.scheduledAt
    finishedAt := b.finishedAt }

/-- `buildkite.ListOptions`: `Page` and `PerPage` are Go `int`s; `Page` is
assigned from `resp.NextPage`, so it is kept as `Int`. -/
structure ListOptions where
  page : Int
  perPage : Nat
deriving DecidableEq

/-- `buildkite.BuildsListOptions` as constructed in `listBuildsBetween`. -/
structure BuildsListOptions where
  listOptions : ListOptions
  createdFrom : Nat
  createdTo : Nat
  state : List String
deriving DecidableEq

/-- The part of `buildkite.Response` the loop reads: `NextPage` (`0` or
negative means "no further page"). -/
structure BKResponse where
  nextPage : Int
deriving DecidableEq

/-- A remote listing capability: model of `b.Client.Builds.ListByOrg`.
Takes the organization and options, returns the raw records and response,
or a transport error. -/
def BKClient : Type :=
  String → BuildsListOptions → Except String (List BKBuild × BKResponse)

/-- `func (b *NetworkBuildkite) query(org string, opts *buildkite.BuildsListOptions)`:
invoke the remote listing once and convert each record with
`newBuildFromBuildkite`. -/
def query (client : BKClient) (org : String) (opts : BuildsListOptions) :
    Except String (List Build × BKResponse) :=
  match client org opts with
  | .error e => .error e
  | .ok (bbuilds, resp) => .ok (bbuilds.map newBuildFromBuildkite, resp)

/-- `opts.ListOptions.Page = resp.NextPage`. -/
def setPage (opts : BuildsListOptions) (p : Int) : BuildsListOptions :=
  { opts with listOptions := { opts.listOptions with page := p } }

/-- The `for` pagination loop inside `listBuildsBetween`: query a page, abort
on error (discarding the accumulator, as the source returns `nil, err`),
append the page's builds, stop when `resp.NextPage <= 0`, else continue at
`resp.NextPage`.  The Go loop has no termination guarantee against an
adversarial client, so the model carries a fuel counter; exhausting it is
reported as an error so no theorem can mistake truncation for success. -/
def fetchAllPages (client : BKClient) (org : String) :
    Nat → BuildsListOptions → List Build → Except String (List Build)
  | 0, _, _ => .error "pagination did not terminate"
  | fuel + 1, opts, acc =>
    match query client org opts with
    | .error e => .error e
    | .ok (builds, resp) =>
      if resp.nextPage ≤ 0 then .ok (acc ++ builds)
      else fetchAllPages client org fuel (setPage opts resp.nextPage) (acc ++ builds)

/-- The `opts` value built at the top of `listBuildsBetween`. -/
def initialOpts (interval : timeInterval) : BuildsListOptions :=
  { listOptions := { page := 1, perPage := itemsPerPage }
    createdFrom := interval.From
    createdTo := interval.To
    state := ["passed"] }

/-- `cacheKey := fmt.Sprintf("%d-%d", interval.From.Unix(), interval.To.Unix())`. -/
def cacheKey (interval : timeInterval) : String :=
  toString interval.From ++ "-" ++ toString interval.To

/-- The environment a `NetworkBuildkite` value closes over, for one call:
the cache contents (`cacheGet k = none` models `Cache.Get` returning an
error, i.e. a miss or read failure), whether `Cache.Put` succeeds per key,
the remote client, the organization, and the pagination fuel. -/
structure GatewayEnv where
  cacheGet : String → Option (List Build)
  putOk : String → Bool
  client : BKClient
  org : String
  fuel : Nat

/-- Observable outcome of one `listBuildsBetween` call: the returned value
or error, the cache contents afterwards, and whether the remote adapter was
invoked. -/
structure GatewayResult where
  builds : Except String (List Build)
  cacheAfter : String → Option (List Build)
  remoteCalled : Bool

/-- `func (b *NetworkBuildkite) readFromCache(key string)`: a `Get` error is
returned to the caller (modelled as `none`); on success the payload is
decompressed and parsed, yielding the stored list (codecs are opaque
inverses; a parse failure would panic and is outside the model). -/
def readFromCache (env : GatewayEnv) (key : String) : Option (List Build) :=
  env.cacheGet key

/-- `func (b *NetworkBuildkite) populateCache(key, builds, ttl)`: marshal,
compress and `Put`.  Returns the cache contents afterwards: unchanged when
`Put` fails.  The TTL is handed to the storage backend, whose expiry is
outside the model. -/
def populateCache (env : GatewayEnv) (key : String) (builds : List Build) :
    String → Option (List Build) :=
  if env.putOk key then
    fun k => if k = key then some builds else env.cacheGet k
  else
    env.cacheGet

/-- `func (b *NetworkBuildkite) listBuildsBetween(interval, cacheTTL)`:
serve from cache when the read succeeds; otherwise fetch all pages remotely,
write through to the cache ignoring the `Put` error (`_ = b.populateCache`),
and return the fetched builds. -/
def listBuildsBetween (env : GatewayEnv) (interval : timeInterval) (ttl : Nat) :
    GatewayResult :=
  let key := cacheKey interval
  match readFromCache env key with
  | some cached =>
    { builds := .ok cached, cacheAfter := env.cacheGet, remoteCalled := false }
  | none =>
    match fetchAllPages env.client env.org env.fuel (initialOpts interval) [] with
    | .error e =>
      { builds := .error e, cacheAfter := env.cacheGet, remoteCalled := true }
    | .ok result =>
      { builds := .ok result
        cacheAfter := populateCache env key result
        remoteCalled := true }

/-- A terminating successful pagination chain starting at `opts`: the list
records, in order, each page's reply; every reply but the last points to the
next page with a positive `NextPage`, and the last reply has
`NextPage ≤ 0`. -/
def chainOk (client : BKClient) (org : String) :
    BuildsListOptions → List (List BKBuild × BKResponse) → Prop
  | _, [] => False
  | opts, [pr] => client org opts = .ok pr ∧ pr.2.nextPage ≤ 0
  | opts, pr :: pr2 :: rest =>
    client org opts = .ok pr ∧ 0 < pr.2.nextPage ∧
      chainOk client org (setPage opts pr.2.nextPage) (pr2 :: rest)

/-- A pagination chain that ends in a transport error `e`: the listed
replies all succeed and point onward, and the page after the last listed
reply fails with `e`. -/
def chainErr (client : BKClient) (org : String) (e : String) :
    BuildsListOptions → List (List BKBuild × BKResponse) → Prop
  | opts, [] => client org opts = .error e
  | opts, pr :: rest =>
    client org opts = .ok pr ∧ 0 < pr.2.nextPage ∧
      chainErr client org e (setPage opts pr.2.nextPage) rest

/-! ## Interval generator lemmas -/

theorem genLoop_eq (to_ s : Nat) :
    genLoop to_ s = if s < to_ then
      { From := s, To := s + 24 * hour } :: genLoop to_ (s + 24 * hour) else [] := by
  rw [genLoop]
  simp

theorem genLoop_eq_nil_iff (to_ s : Nat) : genLoop to_ s = [] ↔ to_ ≤ s := by
  rw [genLoop_eq]
  split
  · simp; omega
  · simp; omega

theorem genLoop_head (to_ s : Nat) (h : s < to_) :
    (genLoop to_ s).head? = some { From := s, To := s + 24 * hour } := by
  rw [genLoop_eq, if_pos h]
  rfl

theorem genLoop_mem_iff (to_ s : Nat) (tv : timeInterval) :
    tv ∈ genLoop to_ s ↔
      ∃ k, tv.From = s + k * (24 * hour) ∧ tv.To = tv.From + 24 * hour ∧ tv.From < to_ := by
  induction s using genLoop.induct to_ with
  | case1 s hs ih =>
    rw [genLoop_eq, if_pos hs, List.mem_cons, ih]
    constructor
    · rintro (rfl | ⟨k, hF, hT, hlt⟩)
      · exact ⟨0, by simp, rfl, hs⟩
      · refine ⟨k + 1, ?_, hT, hlt⟩
        rw [hF]; ring
    · rintro ⟨k, hF, hT, hlt⟩
      match k with
      | 0 =>
        left
        simp at hF
        cases tv
        simp_all
      | k + 1 =>
        right
        refine ⟨k, ?_, hT, hlt⟩
        rw [hF]; ring
  | case2 s hs =>
    rw [genLoop_eq, if_neg hs]
    simp
    rintro k hF hT
    rw [hF]
    exact le_trans (not_lt.mp hs) (Nat.le_add_right _ _)

theorem genLoop_chain (to_ s : Nat) :
    List.Chain' (fun a b => a.To = b.From ∧ a.From < b.From) (genLoop to_ s) := by
  induction s using genLoop.induct to_ with
  | case1 s hs ih =>
    rw [genLoop_eq, if_pos hs]
    refine List.chain'_cons'.mpr ⟨?_, ih⟩
    intro y hy
    by_cases h2 : s + 24 * hour < to_
    · rw [genLoop_head to_ _ h2] at hy
      cases hy
      constructor
      · rfl
      · simp [hour, minute]
    · rw [(genLoop_eq_nil_iff to_ _).mpr (not_lt.mp h2)] at hy
      cases hy
  | case2 s hs =>
    rw [genLoop_eq, if_neg hs]
    exact List.chain'_nil

theorem genLoop_cover (to_ s : Nat) (t : Nat) (h1 : s ≤ t) (h2 : t < to_) :
    ∃ tv ∈ genLoop to_ s, tv.From ≤ t ∧ t < tv.To := by
  induction s using genLoop.induct to_ with
  | case1 s hs ih =>
    rw [genLoop_eq, if_pos hs]
    by_cases h3 : t < s + 24 * hour
    · exact ⟨_, List.mem_cons_self _ _, h1, h3⟩
    · obtain ⟨tv, htv, hle, hlt⟩ := ih (not_lt.mp h3)
      exact ⟨tv, List.mem_cons_of_mem _ htv, hle, hlt⟩
  | case2 s hs =>
    omega

theorem midnightOf_le (t : Nat) : midnightOf t ≤ t :=
  Nat.div_mul_le_self t (24 * hour)

/-! ## Claim C3 -/

/-- C3: for every `from ≤ to`, the Interval Generator's output is a
contiguous, strictly increasing sequence of exact 24-hour intervals; its
first element (when there is one) starts at the local midnight of `from`'s
calendar day; an interval appears iff its start lies on the midnight-aligned
24-hour grid and is strictly before `to` (so the final interval's end may
exceed `to`); and the union of the intervals covers `[midnight(from), to)`. -/
theorem generateDailyIntervals_structure (from_ to_ : Nat) (h : from_ ≤ to_) :
    (∀ tv ∈ generateDailyIntervals from_ to_, tv.To = tv.From + 24 * hour) ∧
    List.Chain' (fun a b => a.To = b.From ∧ a.From < b.From)
      (generateDailyIntervals from_ to_) ∧
    (∀ tv, tv ∈ generateDailyIntervals from_ to_ ↔
      ∃ k, tv.From = midnightOf from_ + k * (24 * hour) ∧
        tv.To = tv.From + 24 * hour ∧ tv.From < to_) ∧
    (generateDailyIntervals from_ to_ ≠ [] →
      (generateDailyIntervals from_ to_).head? =
        some { From := midnightOf from_, To := midnightOf from_ + 24 * hour }) ∧
    (∀ t, midnightOf from_ ≤ t → t < to_ →
      ∃ tv ∈ generateDailyIntervals from_ to_, tv.From ≤ t ∧ t < tv.To) := by
  refine ⟨?_, genLoop_chain to_ _, fun tv => genLoop_mem_iff to_ _ tv, ?_, ?_⟩
  · intro tv htv
    obtain ⟨k, hF, hT, hlt⟩ := (genLoop_mem_iff to_ _ tv).mp htv
    exact hT
  · intro hne
    have hlt : midnightOf from_ < to_ := by
      by_contra hc
      exact hne ((genLoop_eq_nil_iff to_ _).mpr (not_lt.mp hc))
    exact genLoop_head to_ _ hlt
  · intro t h1 h2
    exact genLoop_cover to_ _ t h1 h2

/-- Witness for C3 at `from = 10`, `to = 100` (one bucket, `[0, 86400)`). -/
theorem generateDailyIntervals_structure_witness :
    (10 : Nat) ≤ 100 ∧
    ((∀ tv ∈ generateDailyIntervals 10 100, tv.To = tv.From + 24 * hour) ∧
    List.Chain' (fun a b => a.To = b.From ∧ a.From < b.From)
      (generateDailyIntervals 10 100) ∧
    (∀ tv, tv ∈ generateDailyIntervals 10 100 ↔
      ∃ k, tv.From = midnightOf 10 + k * (24 * hour) ∧
        tv.To = tv.From + 24 * hour ∧ tv.From < 100) ∧
    (generateDailyIntervals 10 100 ≠ [] →
      (generateDailyIntervals 10 100).head? =
        some { From := midnightOf 10, To := midnightOf 10 + 24 * hour }) ∧
    (∀ t, midnightOf 10 ≤ t → t < 100 →
      ∃ tv ∈ generateDailyIntervals 10 100, tv.From ≤ t ∧ t < tv.To)) :=
  ⟨by decide, generateDailyIntervals_structure 10 100 (by decide)⟩

/-! ## Claim C2 -/

/-- C2 counterexample: with `from = to = 86400` (an instant lying exactly on
a local midnight, and `from ≤ to`), `generateDailyIntervals` returns the
empty list, so the sequence does not contain the day containing `from`. -/
theorem generateDailyIntervals_empty_at_midnight :
    (86400 : Nat) ≤ 86400 ∧ generateDailyIntervals 86400 86400 = [] := by
  refine ⟨le_refl _, ?_⟩
  simp [generateDailyIntervals, midnightOf, hour, minute, genLoop]

/-- C2 amended: for every `from ≤ to`, the Interval Generator returns at
least one interval iff `midnight(from) < to`; in particular the sequence is
non-empty whenever `from < to`.  (When `from = to` lies exactly on a local
midnight the sequence is empty, refuting the original "even when
`from == to`".) -/
theorem generateDailyIntervals_nonempty (from_ to_ : Nat) (h : from_ ≤ to_) :
    (generateDailyIntervals from_ to_ ≠ [] ↔ midnightOf from_ < to_) ∧
    (from_ < to_ → generateDailyIntervals from_ to_ ≠ []) := by
  have hmid := midnightOf_le from_
  have hnil := genLoop_eq_nil_iff to_ (midnightOf from_)
  unfold generateDailyIntervals
  constructor
  · rw [Ne, hnil]
    omega
  · intro hlt
    rw [Ne, hnil]
    omega

/-- Witness for the amended C2 at `from = 10`, `to = 100`. -/
theorem generateDailyIntervals_nonempty_witness :
    (10 : Nat) ≤ 100 ∧
    ((generateDailyIntervals 10 100 ≠ [] ↔ midnightOf 10 < 100) ∧
    (10 < 100 → generateDailyIntervals 10 100 ≠ [])) :=
  ⟨by decide, generateDailyIntervals_nonempty 10 100 (by decide)⟩

/-! ## Claim C4 -/

/-- C4: the TTL Policy returns exactly 10 minutes when the interval's end is
within 12 hours of `now` or in the future, and a value in
`[60 days, 60 days + 7 days]` when the interval's end is more than 12 hours
in the past; the jitter draw is an argument of each call, and two calls for
the same far-past interval with different draws can return different
values. -/
theorem cacheTTL_policy (now : Nat) (interval : timeInterval) (r : Nat)
    (hr : r < 7 * 24) :
    (¬ interval.To + 12 * hour < now → cacheTTL now interval r = 10 * minute) ∧
    (interval.To + 12 * hour < now →
      60 * 24 * hour ≤ cacheTTL now interval r ∧
      cacheTTL now interval r ≤ 60 * 24 * hour + 7 * 24 * hour ∧
      ∃ r1 r2, r1 < 7 * 24 ∧ r2 < 7 * 24 ∧
        cacheTTL now interval r1 ≠ cacheTTL now interval r2) := by
  constructor
  · intro hrecent
    simp [cacheTTL, hrecent]
  · intro hold
    refine ⟨?_, ?_, 0, 1, by omega, by omega, ?_⟩
    · simp only [cacheTTL, if_pos hold]
      exact Nat.le_add_right _ _
    · simp only [cacheTTL, if_pos hold]
      simp only [hour, minute] at hr ⊢
      omega
    · simp only [cacheTTL, if_pos hold]
      simp [hour, minute]

/-- Witness for C4 with `now` far after the interval's end and draw `r = 5`. -/
theorem cacheTTL_policy_witness :
    (5 : Nat) < 7 * 24 ∧
    ((¬ timeInterval.To ⟨0, 3600⟩ + 12 * hour < 100000 →
      cacheTTL 100000 ⟨0, 3600⟩ 5 = 10 * minute) ∧
    (timeInterval.To ⟨0, 3600⟩ + 12 * hour < 100000 →
      60 * 24 * hour ≤ cacheTTL 100000 ⟨0, 3600⟩ 5 ∧
      cacheTTL 100000 ⟨0, 3600⟩ 5 ≤ 60 * 24 * hour + 7 * 24 * hour ∧
      ∃ r1 r2, r1 < 7 * 24 ∧ r2 < 7 * 24 ∧
        cacheTTL 100000 ⟨0, 3600⟩ r1 ≠ cacheTTL 100000 ⟨0, 3600⟩ r2)) :=
  ⟨by decide, cacheTTL_policy 100000 ⟨0, 3600⟩ 5 (by decide)⟩

/-! ## Orchestrator lemmas -/

theorem runBuckets_all_ok (fetch : timeInterval → Except String (List Build))
    (from_ to_ : Nat) (pred : Build → Bool) (bs : timeInterval → List Build) :
    ∀ ivs acc, (∀ iv ∈ ivs, fetch iv = .ok (bs iv)) →
      runBuckets fetch from_ to_ pred ivs acc =
        (acc ++ (ivs.flatMap bs).filter (windowPred from_ to_ pred), none) := by
  intro ivs
  induction ivs with
  | nil =>
    intro acc _
    simp [runBuckets]
  | cons iv rest ih =>
    intro acc h
    have hiv : fetch iv = .ok (bs iv) := h iv (List.mem_cons_self _ _)
    simp only [runBuckets, hiv]
    rw [ih _ (fun j hj => h j (List.mem_cons_of_mem _ hj))]
    simp [List.filter_append]

theorem runBuckets_error (fetch : timeInterval → Except String (List Build))
    (from_ to_ : Nat) (pred : Build → Bool) (bs : timeInterval → List Build)
    (iv : timeInterval) (ivs2 : List timeInterval) (e : String) :
    ∀ ivs1 acc, (∀ j ∈ ivs1, fetch j = .ok (bs j)) → fetch iv = .error e →
      runBuckets fetch from_ to_ pred (ivs1 ++ iv :: ivs2) acc =
        (acc ++ (ivs1.flatMap bs).filter (windowPred from_ to_ pred), some e) := by
  intro ivs1
  induction ivs1 with
  | nil =>
    intro acc _ herr
    simp [runBuckets, herr]
  | cons j rest ih =>
    intro acc h herr
    have hj : fetch j = .ok (bs j) := h j (List.mem_cons_self _ _)
    simp only [List.cons_append, runBuckets, hj]
    simp only [List.append_eq]
    rw [ih _ (fun j2 hj2 => h j2 (List.mem_cons_of_mem _ hj2)) herr]
    simp [List.filter_append]

theorem windowPred_congr (from_ to_ : Nat) (p q : Build → Bool)
    (h : ∀ b, from_ < b.createdAt → b.createdAt < to_ → p b = q b) :
    windowPred from_ to_ p = windowPred from_ to_ q := by
  funext b
  unfold windowPred
  by_cases h1 : from_ < b.createdAt
  · by_cases h2 : b.createdAt < to_
    · rw [h b h1 h2]
    · simp [h2]
  · simp [h1]

theorem runBuckets_pred_congr (fetch : timeInterval → Except String (List Build))
    (from_ to_ : Nat) (p q : Build → Bool)
    (h : windowPred from_ to_ p = windowPred from_ to_ q) :
    ∀ ivs acc, runBuckets fetch from_ to_ p ivs acc =
      runBuckets fetch from_ to_ q ivs acc := by
  intro ivs
  induction ivs with
  | nil =>
    intro acc
    simp [runBuckets]
  | cons iv rest ih =>
    intro acc
    simp only [runBuckets]
    cases hfetch : fetch iv with
    | error e => rfl
    | ok bs =>
      rw [h]
      exact ih _

/-! ## Claim C1 -/

/-- C1: when every bucket fetch succeeds, `ListBuilds` returns (with a `nil`
error) exactly the builds of the fetched daily buckets whose `created`
timestamp is strictly between `from` and `now` and which satisfy the
predicate; every returned build lies strictly inside the window, so builds
with `created ≤ from` or `created ≥ now` are excluded even when they lie
inside a fetched bucket. -/
theorem ListBuilds_exact_window (fetch : timeInterval → Except String (List Build))
    (now from_ : Nat) (pred : Build → Bool) (bs : timeInterval → List Build)
    (h : ∀ iv ∈ generateDailyIntervals from_ now, fetch iv = .ok (bs iv)) :
    ListBuilds fetch now from_ pred =
      (((generateDailyIntervals from_ now).flatMap bs).filter
        (windowPred from_ now pred), none) ∧
    ∀ b ∈ (ListBuilds fetch now from_ pred).1,
      from_ < b.createdAt ∧ b.createdAt < now ∧ pred b = true := by
  have hmain := runBuckets_all_ok fetch from_ now pred bs _ [] h
  refine ⟨by simpa [ListBuilds] using hmain, ?_⟩
  intro b hb
  rw [ListBuilds] at hb
  rw [hmain] at hb
  simp only [List.nil_append] at hb
  have hcond := List.of_mem_filter hb
  simp only [windowPred, Bool.and_eq_true, decide_eq_true_eq] at hcond
  exact ⟨hcond.1.1, hcond.1.2, hcond.2⟩

/-- Concrete builds and bucket contents used by the witnesses: one build
created strictly inside the window `(10, 100)`, one at `5 ≤ 10`, one at
`100 ≥ 100`, all lying inside the daily bucket `[0, 86400)`. -/
def bwin : Build :=
  { id := "in", pipeline := { name := "p" }, branch := "main"
    scheduledAt := 50, finishedAt := 60, startedAt := 55, createdAt := 50 }

def bearly : Build :=
  { id := "early", pipeline := { name := "p" }, branch := "main"
    scheduledAt := 5, finishedAt := 8, startedAt := 6, createdAt := 5 }

def blate : Build :=
  { id := "late", pipeline := { name := "p" }, branch := "main"
    scheduledAt := 100, finishedAt := 130, startedAt := 110, createdAt := 100 }

def bsW : timeInterval → List Build := fun _ => [bearly, bwin, blate]

def fetchW : timeInterval → Except String (List Build) := fun iv => .ok (bsW iv)

/-- Witness for C1: `from = 10`, `now = 100`, all three builds in the single
fetched bucket, trivial predicate. -/
theorem ListBuilds_exact_window_witness :
    (∀ iv ∈ generateDailyIntervals 10 100, fetchW iv = .ok (bsW iv)) ∧
    (ListBuilds fetchW 100 10 (fun _ => true) =
      (((generateDailyIntervals 10 100).flatMap bsW).filter
        (windowPred 10 100 (fun _ => true)), none) ∧
    ∀ b ∈ (ListBuilds fetchW 100 10 (fun _ => true)).1,
      10 < b.createdAt ∧ b.createdAt < 100 ∧ (fun _ => true) b = true) :=
  ⟨fun _ _ => rfl,
    ListBuilds_exact_window fetchW 100 10 (fun _ => true) bsW (fun _ _ => rfl)⟩

/-! ## Claim C5 -/

/-- C5: if the fetch of some bucket fails, `ListBuilds` returns that error
together with the filtered builds accumulated from the preceding successful
buckets, and the outcome does not depend on the fetch behaviour on any later
bucket. -/
theorem ListBuilds_error_aborts (fetch : timeInterval → Except String (List Build))
    (now from_ : Nat) (pred : Build → Bool) (bs : timeInterval → List Build)
    (ivs1 : List timeInterval) (iv : timeInterval) (ivs2 : List timeInterval) (e : String)
    (hgen : generateDailyIntervals from_ now = ivs1 ++ iv :: ivs2)
    (h1 : ∀ j ∈ ivs1, fetch j = .ok (bs j))
    (herr : fetch iv = .error e) :
    ListBuilds fetch now from_ pred =
      ((ivs1.flatMap bs).filter (windowPred from_ now pred), some e) ∧
    ∀ fetch2 : timeInterval → Except String (List Build),
      (∀ j ∈ ivs1, fetch2 j = fetch j) → fetch2 iv = .error e →
      ListBuilds fetch2 now from_ pred = ListBuilds fetch now from_ pred := by
  have hmain : ListBuilds fetch now from_ pred =
      ((ivs1.flatMap bs).filter (windowPred from_ now pred), some e) := by
    rw [ListBuilds, hgen]
    simpa using runBuckets_error fetch from_ now pred bs iv ivs2 e ivs1 [] h1 herr
  refine ⟨hmain, ?_⟩
  intro fetch2 hagree herr2
  have h12 : ∀ j ∈ ivs1, fetch2 j = .ok (bs j) := fun j hj => by
    rw [hagree j hj]; exact h1 j hj
  have hmain2 : ListBuilds fetch2 now from_ pred =
      ((ivs1.flatMap bs).filter (windowPred from_ now pred), some e) := by
    rw [ListBuilds, hgen]
    simpa using runBuckets_error fetch2 from_ now pred bs iv ivs2 e ivs1 [] h12 herr2
  rw [hmain, hmain2]

/-- Bucket fetch for the C5 witness: the first day succeeds, the second day
fails with "boom". -/
def fetchE : timeInterval → Except String (List Build) := fun iv =>
  if iv.From = 0 then .ok [bwin] else .error "boom"

def bsE : timeInterval → List Build := fun _ => [bwin]

/-- Witness for C5: `from = 10`, `now = 100000` spans two daily buckets; the
second bucket's fetch fails. -/
theorem ListBuilds_error_aborts_witness :
    generateDailyIntervals 10 100000 =
      [{ From := 0, To := 86400 }] ++ { From := 86400, To := 172800 } :: [] ∧
    (∀ j ∈ [({ From := 0, To := 86400 } : timeInterval)], fetchE j = .ok (bsE j)) ∧
    fetchE { From := 86400, To := 172800 } = .error "boom" ∧
    (ListBuilds fetchE 100000 10 (fun _ => true) =
      (([({ From := 0, To := 86400 } : timeInterval)].flatMap bsE).filter
        (windowPred 10 100000 (fun _ => true)), some "boom") ∧
    ∀ fetch2 : timeInterval → Except String (List Build),
      (∀ j ∈ [({ From := 0, To := 86400 } : timeInterval)], fetch2 j = fetchE j) →
      fetch2 { From := 86400, To := 172800 } = .error "boom" →
      ListBuilds fetch2 100000 10 (fun _ => true) =
        ListBuilds fetchE 100000 10 (fun _ => true)) := by
  have hgen : generateDailyIntervals 10 100000 =
      [{ From := 0, To := 86400 }] ++ { From := 86400, To := 172800 } :: [] := by
    simp [generateDailyIntervals, midnightOf, hour, minute, genLoop]
  have h1 : ∀ j ∈ [({ From := 0, To := 86400 } : timeInterval)],
      fetchE j = .ok (bsE j) := by
    intro j hj
    simp only [List.mem_singleton] at hj
    subst hj
    rfl
  exact ⟨hgen, h1, rfl,
    ListBuilds_error_aborts fetchE 100000 10 (fun _ => true) bsE
      [{ From := 0, To := 86400 }] { From := 86400, To := 172800 } [] "boom"
      hgen h1 rfl⟩

/-! ## Claim C10 -/

/-- C10: the predicate is consulted only behind the exact-window check: two
predicates that agree on every build created strictly inside `(from, now)`
yield identical `ListBuilds` results, whatever the bucket fetches return. -/
theorem ListBuilds_predicate_window_blind
    (fetch : timeInterval → Except String (List Build))
    (now from_ : Nat) (p q : Build → Bool)
    (h : ∀ b : Build, from_ < b.createdAt → b.createdAt < now → p b = q b) :
    ListBuilds fetch now from_ p = ListBuilds fetch now from_ q := by
  unfold ListBuilds
  exact runBuckets_pred_congr fetch from_ now p q
    (windowPred_congr from_ now p q h) _ _

/-- Witness for C10: the constant-true predicate and the window-test
predicate agree inside `(10, 100)` but differ outside it. -/
theorem ListBuilds_predicate_window_blind_witness :
    (∀ b : Build, 10 < b.createdAt → b.createdAt < 100 →
      (fun _ => true) b = (fun b2 => decide (10 < Build.createdAt b2)) b) ∧
    ListBuilds fetchW 100 10 (fun _ => true) =
      ListBuilds fetchW 100 10 (fun b2 => decide (10 < Build.createdAt b2)) := by
  have h : ∀ b : Build, 10 < b.createdAt → b.createdAt < 100 →
      (fun _ => true) b = (fun b2 => decide (10 < Build.createdAt b2)) b := by
    intro b h1 _
    simp [h1]
  exact ⟨h, ListBuilds_predicate_window_blind fetchW 100 10 _ _ h⟩

/-! ## Claim C6 -/

/-- C6: with a populated, readable cache entry for the interval, two
successive calls to the Bucket Cache Gateway both return exactly the cached
list (identical results) and neither call, in particular not the second,
invokes the remote adapter. -/
theorem listBuildsBetween_cached_idempotent (env : GatewayEnv)
    (interval : timeInterval) (ttl1 ttl2 : Nat) (cached : List Build)
    (h : env.cacheGet (cacheKey interval) = some cached) :
    (listBuildsBetween env interval ttl1).builds = .ok cached ∧
    (listBuildsBetween env interval ttl1).remoteCalled = false ∧
    (listBuildsBetween
        { env with cacheGet := (listBuildsBetween env interval ttl1).cacheAfter }
        interval ttl2).builds = .ok cached ∧
    (listBuildsBetween
        { env with cacheGet := (listBuildsBetween env interval ttl1).cacheAfter }
        interval ttl2).remoteCalled = false := by
  have h1 : listBuildsBetween env interval ttl1 =
      { builds := .ok cached, cacheAfter := env.cacheGet, remoteCalled := false } := by
    simp [listBuildsBetween, readFromCache, h]
  rw [h1]
  refine ⟨rfl, rfl, ?_, ?_⟩ <;> simp [listBuildsBetween, readFromCache, h]

/-- The empty remote client used by the gateway witnesses: one page with no
records and no next page. -/
def clientEmpty : BKClient := fun _ _ => .ok ([], { nextPage := 0 })

/-- Gateway environment with the bucket `[0, 86400)` cached. -/
def envCached : GatewayEnv :=
  { cacheGet := fun k => if k = cacheKey { From := 0, To := 86400 } then some [bwin] else none
    putOk := fun _ => true
    client := clientEmpty
    org := "tink"
    fuel := 5 }

/-- Witness for C6 on `envCached`, interval `[0, 86400)`, TTLs 600 and 700. -/
theorem listBuildsBetween_cached_idempotent_witness :
    envCached.cacheGet (cacheKey { From := 0, To := 86400 }) = some [bwin] ∧
    ((listBuildsBetween envCached { From := 0, To := 86400 } 600).builds = .ok [bwin] ∧
    (listBuildsBetween envCached { From := 0, To := 86400 } 600).remoteCalled = false ∧
    (listBuildsBetween
        { envCached with
          cacheGet := (listBuildsBetween envCached { From := 0, To := 86400 } 600).cacheAfter }
        { From := 0, To := 86400 } 700).builds = .ok [bwin] ∧
    (listBuildsBetween
        { envCached with
          cacheGet := (listBuildsBetween envCached { From := 0, To := 86400 } 600).cacheAfter }
        { From := 0, To := 86400 } 700).remoteCalled = false) :=
  ⟨rfl, listBuildsBetween_cached_idempotent envCached { From := 0, To := 86400 }
    600 700 [bwin] rfl⟩

/-! ## Claim C8 -/

/-- C8: when the cache read for the bucket's key fails (miss or read
failure), the gateway performs the remote fetch, its outcome is exactly the
remote fetch's outcome, and the cache failure is never surfaced: any two
environments differing only in their (failing) cache read and in `Put`
behaviour produce the same returned value. -/
theorem listBuildsBetween_miss_falls_through (env : GatewayEnv)
    (interval : timeInterval) (ttl : Nat)
    (h : env.cacheGet (cacheKey interval) = none) :
    (listBuildsBetween env interval ttl).remoteCalled = true ∧
    (listBuildsBetween env interval ttl).builds =
      fetchAllPages env.client env.org env.fuel (initialOpts interval) [] ∧
    ∀ (g2 : String → Option (List Build)) (p2 : String → Bool),
      g2 (cacheKey interval) = none →
      (listBuildsBetween { env with cacheGet := g2, putOk := p2 } interval ttl).builds =
        (listBuildsBetween env interval ttl).builds := by
  refine ⟨?_, ?_, ?_⟩
  · cases hf : fetchAllPages env.client env.org env.fuel (initialOpts interval) [] with
    | error e => simp [listBuildsBetween, readFromCache, h, hf]
    | ok result => simp [listBuildsBetween, readFromCache, h, hf]
  · cases hf : fetchAllPages env.client env.org env.fuel (initialOpts interval) [] with
    | error e => simp [listBuildsBetween, readFromCache, h, hf]
    | ok result => simp [listBuildsBetween, readFromCache, h, hf]
  · intro g2 p2 h2
    cases hf : fetchAllPages env.client env.org env.fuel (initialOpts interval) [] with
    | error e => simp [listBuildsBetween, readFromCache, h, h2, hf]
    | ok result => simp [listBuildsBetween, readFromCache, h, h2, hf]

/-- Gateway environment whose cache read always fails. -/
def envMiss : GatewayEnv :=
  { cacheGet := fun _ => none
    putOk := fun _ => true
    client := clientEmpty
    org := "tink"
    fuel := 5 }

/-- Witness for C8 on `envMiss`, interval `[0, 86400)`, TTL 600. -/
theorem listBuildsBetween_miss_falls_through_witness :
    envMiss.cacheGet (cacheKey { From := 0, To := 86400 }) = none ∧
    ((listBuildsBetween envMiss { From := 0, To := 86400 } 600).remoteCalled = true ∧
    (listBuildsBetween envMiss { From := 0, To := 86400 } 600).builds =
      fetchAllPages envMiss.client envMiss.org envMiss.fuel
        (initialOpts { From := 0, To := 86400 }) [] ∧
    ∀ (g2 : String → Option (List Build)) (p2 : String → Bool),
      g2 (cacheKey { From := 0, To := 86400 }) = none →
      (listBuildsBetween { envMiss with cacheGet := g2, putOk := p2 }
          { From := 0, To := 86400 } 600).builds =
        (listBuildsBetween envMiss { From := 0, To := 86400 } 600).builds) :=
  ⟨rfl, listBuildsBetween_miss_falls_through envMiss { From := 0, To := 86400 } 600 rfl⟩

/-! ## Claim C9 -/

/-- C9: after a successful remote fetch, a failing cache `Put` neither fails
the operation nor alters the returned value: the freshly fetched builds are
returned with a `nil` error (and the cache is simply left unchanged). -/
theorem listBuildsBetween_put_failure_ignored (env : GatewayEnv)
    (interval : timeInterval) (ttl : Nat) (result : List Build)
    (hmiss : env.cacheGet (cacheKey interval) = none)
    (hfetch : fetchAllPages env.client env.org env.fuel (initialOpts interval) [] =
      .ok result)
    (hput : env.putOk (cacheKey interval) = false) :
    (listBuildsBetween env interval ttl).builds = .ok result ∧
    (listBuildsBetween env interval ttl).cacheAfter = env.cacheGet := by
  constructor
  · simp [listBuildsBetween, readFromCache, hmiss, hfetch]
  · simp [listBuildsBetween, readFromCache, hmiss, hfetch, populateCache, hput]

/-- Gateway environment whose cache read fails and whose cache write also
fails. -/
def envPutFail : GatewayEnv :=
  { cacheGet := fun _ => none
    putOk := fun _ => false
    client := clientEmpty
    org := "tink"
    fuel := 5 }

/-- Witness for C9 on `envPutFail`: the remote fetch succeeds with an empty
page, the write-through fails, and the fetched list is still returned. -/
theorem listBuildsBetween_put_failure_ignored_witness :
    envPutFail.cacheGet (cacheKey { From := 0, To := 86400 }) = none ∧
    fetchAllPages envPutFail.client envPutFail.org envPutFail.fuel
      (initialOpts { From := 0, To := 86400 }) [] = .ok [] ∧
    envPutFail.putOk (cacheKey { From := 0, To := 86400 }) = false ∧
    ((listBuildsBetween envPutFail { From := 0, To := 86400 } 600).builds = .ok [] ∧
    (listBuildsBetween envPutFail { From := 0, To := 86400 } 600).cacheAfter =
      envPutFail.cacheGet) :=
  ⟨rfl, rfl, rfl,
    listBuildsBetween_put_failure_ignored envPutFail { From := 0, To := 86400 }
      600 [] rfl rfl rfl⟩

/-! ## Pagination lemmas -/

theorem fetchAllPages_chainOk (client : BKClient) (org : String) :
    ∀ (rs : List (List BKBuild × BKResponse)) (opts : BuildsListOptions)
      (fuel : Nat) (acc : List Build),
      chainOk client org opts rs → rs.length ≤ fuel →
      fetchAllPages client org fuel opts acc =
        .ok (acc ++ rs.flatMap (fun pr => pr.1.map newBuildFromBuildkite)) := by
  intro rs
  induction rs with
  | nil =>
    intro opts fuel acc h _
    exact absurd h (by simp [chainOk])
  | cons pr rest ih =>
    intro opts fuel acc h hlen
    match fuel with
    | 0 => simp at hlen
    | fuel + 1 =>
      match rest with
      | [] =>
        simp only [chainOk] at h
        obtain ⟨hc, hnp⟩ := h
        simp [fetchAllPages, query, hc, hnp]
      | pr2 :: rest2 =>
        simp only [chainOk] at h
        obtain ⟨hc, hpos, hch⟩ := h
        have hq : query client org opts = .ok (pr.1.map newBuildFromBuildkite, pr.2) := by
          simp [query, hc]
        have hnneg : ¬ pr.2.nextPage ≤ 0 := by omega
        simp only [fetchAllPages, hq]
        rw [if_neg hnneg]
        rw [ih _ fuel _ hch (by simpa using Nat.le_of_succ_le_succ hlen)]
        simp

theorem fetchAllPages_chainErr (client : BKClient) (org : String) (e : String) :
    ∀ (rs : List (List BKBuild × BKResponse)) (opts : BuildsListOptions)
      (fuel : Nat) (acc : List Build),
      chainErr client org e opts rs → rs.length < fuel →
      fetchAllPages client org fuel opts acc = .error e := by
  intro rs
  induction rs with
  | nil =>
    intro opts fuel acc h hlen
    match fuel with
    | 0 => simp at hlen
    | fuel + 1 =>
      simp only [chainErr] at h
      simp [fetchAllPages, query, h]
  | cons pr rest ih =>
    intro opts fuel acc h hlen
    match fuel with
    | 0 => simp at hlen
    | fuel + 1 =>
      simp only [chainErr] at h
      obtain ⟨hc, hpos, hch⟩ := h
      have hq : query client org opts = .ok (pr.1.map newBuildFromBuildkite, pr.2) := by
        simp [query, hc]
      have hnneg : ¬ pr.2.nextPage ≤ 0 := by omega
      simp only [fetchAllPages, hq]
      rw [if_neg hnneg]
      exact ih _ fuel _ hch (by simpa using Nat.lt_of_succ_lt_succ hlen)

/-! ## Claim C7 -/

/-- C7: for a bucket's interval, the adapter queries with page size 100 and
state filter "passed"; when the remote replies form a finite chain (each
reply naming the next page, the last indicating none), it returns all
records of all pages, converted, concatenated in page order with each page
contributing exactly once; the loop stops exactly at the reply with no
further page; and a transport error at any page aborts the loop and is
propagated. -/
theorem remoteAdapter_pagination (client : BKClient) (org : String)
    (interval : timeInterval) (fuel : Nat) :
    (initialOpts interval).listOptions.perPage = 100 ∧
    (initialOpts interval).state = ["passed"] ∧
    (initialOpts interval).listOptions.page = 1 ∧
    (∀ rs, chainOk client org (initialOpts interval) rs → rs.length ≤ fuel →
      fetchAllPages client org fuel (initialOpts interval) [] =
        .ok (rs.flatMap (fun pr => pr.1.map newBuildFromBuildkite))) ∧
    (∀ e rs, chainErr client org e (initialOpts interval) rs → rs.length < fuel →
      fetchAllPages client org fuel (initialOpts interval) [] = .error e) := by
  refine ⟨rfl, rfl, rfl, ?_, ?_⟩
  · intro rs h hl
    simpa using fetchAllPages_chainOk client org rs (initialOpts interval) fuel [] h hl
  · intro e rs h hl
    exact fetchAllPages_chainErr client org e rs (initialOpts interval) fuel [] h hl

/-- Remote records used by the C7 witness, one page each. -/
def bk1 : BKBuild :=
  { id := "a", pipelineName := "p", branch := "m"
    createdAt := 11, startedAt := 12, scheduledAt := 11, finishedAt := 13 }

def bk2 : BKBuild :=
  { id := "b", pipelineName := "p", branch := "m"
    createdAt := 21, startedAt := 22, scheduledAt := 21, finishedAt := 23 }

def bk3 : BKBuild :=
  { id := "c", pipelineName := "p", branch := "m"
    createdAt := 31, startedAt := 32, scheduledAt := 31, finishedAt := 33 }

/-- A three-page remote client: page 1 points to page 2, page 2 to page 3,
page 3 is the last. -/
def client3 : BKClient := fun _ opts =>
  if opts.listOptions.page = 1 then .ok ([bk1], { nextPage := 2 })
  else if opts.listOptions.page = 2 then .ok ([bk2], { nextPage := 3 })
  else .ok ([bk3], { nextPage := 0 })

/-- The reply chain `client3` produces from page 1. -/
def rs3 : List (List BKBuild × BKResponse) :=
  [([bk1], { nextPage := 2 }), ([bk2], { nextPage := 3 }), ([bk3], { nextPage := 0 })]

/-- Witness for C7: `client3` over the bucket `[0, 86400)` with fuel 5
returns the three pages' records in page order. -/
theorem remoteAdapter_pagination_witness :
    chainOk client3 "tink" (initialOpts { From := 0, To := 86400 }) rs3 ∧
    rs3.length ≤ 5 ∧
    fetchAllPages client3 "tink" 5 (initialOpts { From := 0, To := 86400 }) [] =
      .ok (rs3.flatMap (fun pr => pr.1.map newBuildFromBuildkite)) := by
  have hchain : chainOk client3 "tink" (initialOpts { From := 0, To := 86400 }) rs3 := by
    simp only [rs3, chainOk]
    refine ⟨rfl, by decide, rfl, by decide, rfl, by decide⟩
  exact ⟨hchain, by decide,
    (remoteAdapter_pagination client3 "tink" { From := 0, To := 86400 } 5).2.2.2.1
      rs3 hchain (by decide)⟩

end BuildkiteStats
